import Mathlib

/-
Shallow embedding of the libcalico-go v1→v3 policy/rule conversion engine
(lib/upgrade/etcd/conversionv1v3/rule.go and its collaborators).

Modelling conventions:
- A Go pointer field (`*T`) is `Option T`; a Go slice (`[]T`) is
  `GoSlice T := Option (List T)`, so that a nil slice and an empty slice
  are distinct values, as they are in Go.
- Go strings are Lean `String`s; resource names are byte lists
  (`List Nat`), since the name normalizer works on raw bytes.
- An IP network (`net.IPNet`) is an address/prefix pair of naturals.
- A function whose Go original dereferences a possibly-nil pointer with
  no guard returns `Option`: `none` models the runtime panic.
-/

/-- A Go slice: `none` is the nil slice, `some l` a non-nil slice. -/
abbrev GoSlice (α : Type) := Option (List α)

/-- Go `append` on a possibly-nil slice: appending to nil allocates. -/
def goAppend {α : Type} (s : GoSlice α) (x : α) : GoSlice α :=
  match s with
  | none => some [x]
  | some l => some (l ++ [x])

/-- An IP network (`net.IPNet`): an address of `width` bits (32 or 128)
with a prefix length. -/
structure IPNet where
  width : Nat
  addr : Nat
  prefixLen : Nat
deriving DecidableEq, Repr

/-- Modelled from the spec: `net.IPNet.Network()` (lib/net, absent from
src/) returns the network whose address is masked to the network's own
prefix length, clearing all host bits. -/
def IPNet.network (n : IPNet) : IPNet :=
  { n with addr := 2 ^ (n.width - n.prefixLen) * (n.addr / 2 ^ (n.width - n.prefixLen)) }

/-- The host bits of a network: the address bits beyond the prefix. -/
def IPNet.hostBits (n : IPNet) : Nat :=
  n.addr % 2 ^ (n.width - n.prefixLen)

/-- Rendering of a network as text (`addr/prefixLen`); the exact text is
not load-bearing for any claim, only that each network renders to one
string. -/
def IPNet.netString (n : IPNet) : String :=
  toString n.addr ++ "/" ++ toString n.prefixLen

/-- `(*net.IPNet).String()` on a possibly-nil pointer: Go renders a nil
pointer as the text nil marker instead of panicking. -/
def netOptString : Option IPNet → String
  | none => "<nil>"
  | some n => n.netString

/-- `numorstring.Port`: a port range or named port. -/
structure Port where
  MinPort : Nat
  MaxPort : Nat
  PortName : String
deriving DecidableEq, Repr

/-- `numorstring.Protocol`: a protocol identifier, by number or by name. -/
inductive numorstring.Protocol where
  | num (n : Int)
  | str (s : String)
deriving DecidableEq, Repr

/-- Modelled from the spec: `numorstring.ProtocolV3FromProtocolV1`
(lib/numorstring, absent from src/) is a direct structural translation
of the legacy protocol encoding (name-or-number) to the current
encoding. -/
def numorstring.ProtocolV3FromProtocolV1 (p : numorstring.Protocol) : numorstring.Protocol :=
  match p with
  | .num n => .num n
  | .str s => .str s

namespace apiv1

/-- `apiv1.ICMPFields`: optional ICMP code and type. `TypeVal` is the Go
field `Type`. -/
structure ICMPFields where
  Code : Option Int
  TypeVal : Option Int
deriving DecidableEq, Repr

/-- `apiv1.EntityRule`: the legacy-API source/destination match. -/
structure EntityRule where
  Tag : String
  Net : Option IPNet
  Nets : GoSlice (Option IPNet)
  Selector : String
  Ports : GoSlice Port
  NotTag : String
  NotNet : Option IPNet
  NotNets : GoSlice (Option IPNet)
  NotSelector : String
  NotPorts : GoSlice Port
deriving DecidableEq, Repr

/-- `apiv1.Rule`: a legacy-API rule. -/
structure Rule where
  Action : String
  IPVersion : Option Int
  Protocol : Option numorstring.Protocol
  ICMP : Option ICMPFields
  NotProtocol : Option numorstring.Protocol
  NotICMP : Option ICMPFields
  Source : EntityRule
  Destination : EntityRule
deriving DecidableEq, Repr

end apiv1

namespace model

/-- `model.Rule`: the backend (key/value store) rule, with flattened
ICMP fields and flattened source/destination fields. -/
structure Rule where
  Action : String
  IPVersion : Option Int
  Protocol : Option numorstring.Protocol
  ICMPCode : Option Int
  ICMPType : Option Int
  NotProtocol : Option numorstring.Protocol
  NotICMPCode : Option Int
  NotICMPType : Option Int
  SrcTag : String
  SrcNet : Option IPNet
  SrcNets : GoSlice (Option IPNet)
  SrcSelector : String
  SrcPorts : GoSlice Port
  DstTag : String
  DstNet : Option IPNet
  DstNets : GoSlice (Option IPNet)
  DstSelector : String
  DstPorts : GoSlice Port
  NotSrcTag : String
  NotSrcNet : Option IPNet
  NotSrcNets : GoSlice (Option IPNet)
  NotSrcSelector : String
  NotSrcPorts : GoSlice Port
  NotDstTag : String
  NotDstNet : Option IPNet
  NotDstNets : GoSlice (Option IPNet)
  NotDstSelector : String
  NotDstPorts : GoSlice Port
deriving DecidableEq, Repr

end model

/-- Modelled from the spec: `combineNets` (backend/model, absent from
src/) flattens the deprecated singular net pointer and the plural net
list into one sequence, singular first. -/
def combineNets (n : Option IPNet) (nets : GoSlice (Option IPNet)) : List (Option IPNet) :=
  (match n with | some x => [some x] | none => []) ++ nets.getD []

/-- Modelled from the spec: `model.Rule.AllSrcNets` (backend/model,
absent from src/). -/
def model.Rule.AllSrcNets (r : model.Rule) : List (Option IPNet) :=
  combineNets r.SrcNet r.SrcNets

/-- Modelled from the spec: `model.Rule.AllDstNets` (backend/model,
absent from src/). -/
def model.Rule.AllDstNets (r : model.Rule) : List (Option IPNet) :=
  combineNets r.DstNet r.DstNets

/-- Modelled from the spec: `model.Rule.AllNotSrcNets` (backend/model,
absent from src/). -/
def model.Rule.AllNotSrcNets (r : model.Rule) : List (Option IPNet) :=
  combineNets r.NotSrcNet r.NotSrcNets

/-- Modelled from the spec: `model.Rule.AllNotDstNets` (backend/model,
absent from src/). -/
def model.Rule.AllNotDstNets (r : model.Rule) : List (Option IPNet) :=
  combineNets r.NotDstNet r.NotDstNets

namespace apiv3

/-- `apiv3.Action` is a string type; unknown tokens are representable. -/
abbrev Action := String

/-- `apiv3.Allow`. -/
def Allow : Action := "Allow"

/-- `apiv3.Deny`. -/
def Deny : Action := "Deny"

/-- `apiv3.Log`. -/
def Log : Action := "Log"

/-- `apiv3.Pass`. -/
def Pass : Action := "Pass"

/-- `apiv3.ICMPFields`. `TypeVal` is the Go field `Type`. -/
structure ICMPFields where
  Code : Option Int
  TypeVal : Option Int
deriving DecidableEq, Repr

/-- `apiv3.EntityRule`: current-API source/destination match; nets are
flat string sequences, tags are gone. -/
structure EntityRule where
  Nets : GoSlice String
  Selector : String
  Ports : GoSlice Port
  NotNets : GoSlice String
  NotSelector : String
  NotPorts : GoSlice Port
deriving DecidableEq, Repr

/-- `apiv3.Rule`: a current-API rule. -/
structure Rule where
  Action : Action
  IPVersion : Option Int
  Protocol : Option numorstring.Protocol
  ICMP : Option ICMPFields
  NotProtocol : Option numorstring.Protocol
  NotICMP : Option ICMPFields
  Source : EntityRule
  Destination : EntityRule
deriving DecidableEq, Repr

end apiv3

/-- `strings.ToLower` on ASCII action tokens: lowercase each character.
(Defined by structural recursion over the character list so that it
evaluates inside the kernel.) -/
def strToLower (s : String) : String :=
  String.mk (s.data.map Char.toLower)

/-- `ruleActionAPIToBackend` (rule.go): legacy action to backend token. -/
def ruleActionAPIToBackend (action : String) : String :=
  if action = "Pass" then "next-tier" else action

/-- `ruleActionToV3API` (rule.go): backend action token to current-API
action value. -/
def ruleActionToV3API (inAction : String) : apiv3.Action :=
  if inAction = "" then apiv3.Allow
  else if inAction = "next-tier" then apiv3.Pass
  else
    match [apiv3.Allow, apiv3.Deny, apiv3.Log, apiv3.Pass].find?
        (fun action => strToLower inAction = strToLower action) with
    | some action => action
    | none => (inAction : apiv3.Action)

/-- `normalizeIPNet` (rule.go): nil in, nil out; otherwise mask the
address to the network's prefix length. -/
def normalizeIPNet : Option IPNet → Option IPNet
  | none => none
  | some n => some n.network

/-- `normalizeIPNets` (rule.go): nil slice in, nil slice out; otherwise
normalize each element (elements are themselves possibly-nil pointers). -/
def normalizeIPNets : GoSlice (Option IPNet) → GoSlice (Option IPNet)
  | none => none
  | some nets => some (nets.map normalizeIPNet)

/-- `ruleAPIToBackend` (rule.go): a legacy-API rule to a backend rule.
The ICMP substructures are flattened; only destination-side nets are
normalized.  (The Go original also emits a process-wide one-time
deprecation warning when a deprecated Net/NotNet field is in use; that
is logging only and does not affect the returned value.) -/
def ruleAPIToBackend (ar : apiv1.Rule) : model.Rule :=
  let icmpCode : Option Int := match ar.ICMP with | some i => i.Code | none => none
  let icmpType : Option Int := match ar.ICMP with | some i => i.TypeVal | none => none
  let notICMPCode : Option Int := match ar.NotICMP with | some i => i.Code | none => none
  let notICMPType : Option Int := match ar.NotICMP with | some i => i.TypeVal | none => none
  { Action := ruleActionAPIToBackend ar.Action
    IPVersion := ar.IPVersion
    Protocol := ar.Protocol
    ICMPCode := icmpCode
    ICMPType := icmpType
    NotProtocol := ar.NotProtocol
    NotICMPCode := notICMPCode
    NotICMPType := notICMPType
    SrcTag := ar.Source.Tag
    SrcNet := ar.Source.Net
    SrcNets := ar.Source.Nets
    SrcSelector := ar.Source.Selector
    SrcPorts := ar.Source.Ports
    DstTag := ar.Destination.Tag
    DstNet := normalizeIPNet ar.Destination.Net
    DstNets := normalizeIPNets ar.Destination.Nets
    DstSelector := ar.Destination.Selector
    DstPorts := ar.Destination.Ports
    NotSrcTag := ar.Source.NotTag
    NotSrcNet := ar.Source.NotNet
    NotSrcNets := ar.Source.NotNets
    NotSrcSelector := ar.Source.NotSelector
    NotSrcPorts := ar.Source.NotPorts
    NotDstTag := ar.Destination.NotTag
    NotDstNet := normalizeIPNet ar.Destination.NotNet
    NotDstNets := normalizeIPNets ar.Destination.NotNets
    NotDstSelector := ar.Destination.NotSelector
    NotDstPorts := ar.Destination.NotPorts }

/-- `ruleBackendToAPI` (rule.go): a backend rule to a current-API rule.
Builds the ICMP substructures only when a sub-field is set, flattens the
four net field pairs into string sequences with Go append (nil unless
something is appended), folds tags into selectors, and maps action and
protocol.  The Go original dereferences `*br.Protocol` unguarded;
`none` models that panic. -/
def ruleBackendToAPI (br : model.Rule) : Option apiv3.Rule :=
  let icmp : Option apiv3.ICMPFields :=
    if br.ICMPCode.isSome || br.ICMPType.isSome then
      some { Code := br.ICMPCode, TypeVal := br.ICMPType }
    else none
  let notICMP : Option apiv3.ICMPFields :=
    if br.NotICMPCode.isSome || br.NotICMPType.isSome then
      some { Code := br.NotICMPCode, TypeVal := br.NotICMPType }
    else none
  let srcNetsStr : GoSlice String :=
    (br.AllSrcNets.map netOptString).foldl goAppend none
  let dstNetsStr : GoSlice String :=
    (br.AllDstNets.map netOptString).foldl goAppend none
  let notSrcNetsStr : GoSlice String :=
    (br.AllNotSrcNets.map netOptString).foldl goAppend none
  let notDstNetsStr : GoSlice String :=
    (br.AllNotDstNets.map netOptString).foldl goAppend none
  let srcSelector : String :=
    if br.SrcTag ≠ "" then "(" ++ br.SrcSelector ++ ") && " ++ br.SrcTag ++ " == ''"
    else br.SrcSelector
  let dstSelector : String :=
    if br.DstTag ≠ "" then "(" ++ br.DstSelector ++ ") && " ++ br.DstTag ++ " == ''"
    else br.DstSelector
  let notSrcSelector : String :=
    if br.NotSrcTag ≠ "" then "(" ++ br.NotSrcSelector ++ ") && " ++ br.NotSrcTag ++ " == ''"
    else br.NotSrcSelector
  let notDstSelector : String :=
    if br.NotDstTag ≠ "" then "(" ++ br.NotDstSelector ++ ") && " ++ br.NotDstTag ++ " == ''"
    else br.NotDstSelector
  match br.Protocol with
  | none => none
  | some p =>
    some
      { Action := ruleActionToV3API br.Action
        IPVersion := br.IPVersion
        Protocol := some (numorstring.ProtocolV3FromProtocolV1 p)
        ICMP := icmp
        NotProtocol := br.NotProtocol
        NotICMP := notICMP
        Source :=
          { Nets := srcNetsStr
            Selector := srcSelector
            Ports := br.SrcPorts
            NotNets := notSrcNetsStr
            NotSelector := notSrcSelector
            NotPorts := br.NotSrcPorts }
        Destination :=
          { Nets := dstNetsStr
            Selector := dstSelector
            Ports := br.DstPorts
            NotNets := notDstNetsStr
            NotSelector := notDstSelector
            NotPorts := br.NotDstPorts } }

/-- `rulesAPIToBackend` (rule.go): nil slice becomes an empty non-nil
slice; otherwise convert elementwise. -/
def rulesAPIToBackend : GoSlice apiv1.Rule → GoSlice model.Rule
  | none => some []
  | some ars => some (ars.map ruleAPIToBackend)

/-- `rulesV1BackendToV3API` (rule.go): nil slice stays nil; otherwise
convert elementwise.  The outer `Option` models the panic that a rule
with a nil protocol causes; the inner `GoSlice` is the returned Go
slice. -/
def rulesV1BackendToV3API : GoSlice model.Rule → Option (GoSlice apiv3.Rule)
  | none => some none
  | some brs => (brs.mapM ruleBackendToAPI).map some

/-- A byte is an ASCII alphanumeric character (digit, uppercase or
lowercase letter): the characters allowed by the current naming scheme
that name normalization keeps. -/
def isAlnumByte (b : Nat) : Bool :=
  decide ((48 ≤ b ∧ b ≤ 57) ∨ (65 ≤ b ∧ b ≤ 90) ∨ (97 ≤ b ∧ b ≤ 122))

/-- ASCII lowercasing of one byte. -/
def lowerByte (b : Nat) : Nat :=
  if 65 ≤ b ∧ b ≤ 90 then b + 32 else b

/-- Modelled from the spec: the run-collapsing step of the name
normalizer (names.go, absent from src/).  Walks the byte list; an
allowed (alphanumeric) byte is kept; a maximal run of disallowed bytes
is replaced by a single separator byte 46 (a dot).  The flag records
whether we are inside a disallowed run whose separator was already
emitted. -/
def collapseAux : Bool → List Nat → List Nat
  | _, [] => []
  | inRun, b :: rest =>
    if isAlnumByte b then b :: collapseAux false rest
    else if inRun then collapseAux true rest
    else 46 :: collapseAux true rest

/-- Modelled from the spec: `NameNormalizer.normalize` (names.go, absent
from src/): lowercase the bytes, then collapse every run of disallowed
characters into a single dot. -/
def convertName (l : List Nat) : List Nat :=
  collapseAux false (l.map lowerByte)

/-- `apiv3.PolicyType`: the current API's typed applicability marker. -/
inductive apiv3.PolicyType where
  | ingress
  | egress
deriving DecidableEq, Repr

/-- Backend lowercase type token to the current API's typed enum. -/
def policyTypeToV3 : String → Option apiv3.PolicyType
  | "ingress" => some apiv3.PolicyType.ingress
  | "egress" => some apiv3.PolicyType.egress
  | _ => none

/-- Types slice mapping: nil stays nil; otherwise map each token. -/
def goTypesToV3 : GoSlice String → Option (GoSlice apiv3.PolicyType)
  | none => some none
  | some ts => (ts.mapM policyTypeToV3).map some

/-- `model.Policy`: the backend policy value. -/
structure model.Policy where
  Order : Option Float
  InboundRules : GoSlice model.Rule
  OutboundRules : GoSlice model.Rule
  Selector : String
  DoNotTrack : Bool
  PreDNAT : Bool
  ApplyOnForward : Bool
  Types : GoSlice String

/-- `model.PolicyKey`: the backend key carrying the resource name (as
bytes). -/
structure model.PolicyKey where
  Name : List Nat

/-- `model.KVPair` specialized to policies. -/
structure model.KVPair where
  Key : model.PolicyKey
  Value : model.Policy

/-- `apiv3.GlobalNetworkPolicySpec`. -/
structure apiv3.GlobalNetworkPolicySpec where
  Order : Option Float
  Ingress : GoSlice apiv3.Rule
  Egress : GoSlice apiv3.Rule
  Selector : String
  DoNotTrack : Bool
  PreDNAT : Bool
  ApplyOnForward : Bool
  Types : GoSlice apiv3.PolicyType

/-- `apiv3.GlobalNetworkPolicy`. -/
structure apiv3.GlobalNetworkPolicy where
  Name : List Nat
  Spec : apiv3.GlobalNetworkPolicySpec

/-- Modelled from the spec: `Policy.BackendV1ToAPIV3` (policy.go, absent
from src/).  Name is normalized; Ingress/Egress are the rule sequences
converted by `rulesV1BackendToV3API`; Order, Selector and the flags are
copied, except ApplyOnForward which is recomputed as
`ApplyOnForward OR (DoNotTrack AND PreDNAT)`; Types are mapped to the
typed enum, order preserved.  `none` models an error/panic escaping the
conversion. -/
def backendV1ToAPIV3 (kv : model.KVPair) : Option apiv3.GlobalNetworkPolicy :=
  match rulesV1BackendToV3API kv.Value.InboundRules,
      rulesV1BackendToV3API kv.Value.OutboundRules,
      goTypesToV3 kv.Value.Types with
  | some ingress, some egress, some types =>
    some
      { Name := convertName kv.Key.Name
        Spec :=
          { Order := kv.Value.Order
            Ingress := ingress
            Egress := egress
            Selector := kv.Value.Selector
            DoNotTrack := kv.Value.DoNotTrack
            PreDNAT := kv.Value.PreDNAT
            ApplyOnForward := kv.Value.ApplyOnForward || (kv.Value.DoNotTrack && kv.Value.PreDNAT)
            Types := types } }
  | _, _, _ => none

/-- ASCII lowercasing is idempotent on bytes. -/
theorem lowerByte_idem (b : Nat) : lowerByte (lowerByte b) = lowerByte b := by
  by_cases h : 65 ≤ b ∧ b ≤ 90
  · have h1 : lowerByte b = b + 32 := by rw [lowerByte, if_pos h]
    rw [h1, lowerByte, if_neg (by omega)]
  · have h1 : lowerByte b = b := by rw [lowerByte, if_neg h]
    rw [h1, h1]

/-- Lowercasing fixes the separator byte. -/
theorem lowerByte_dot : lowerByte 46 = 46 := by decide

/-- Unfolding: collapsing the empty byte list. -/
theorem collapseAux_nil (flag : Bool) : collapseAux flag [] = [] := by
  cases flag <;> rfl

/-- Unfolding: an allowed byte is kept and ends any run. -/
theorem collapseAux_cons_allowed (flag : Bool) (b : Nat) (rest : List Nat)
    (hb : isAlnumByte b = true) :
    collapseAux flag (b :: rest) = b :: collapseAux false rest := by
  cases flag <;> simp [collapseAux, hb]

/-- Unfolding: a disallowed byte outside a run emits the separator. -/
theorem collapseAux_cons_dis_false (b : Nat) (rest : List Nat)
    (hb : isAlnumByte b = false) :
    collapseAux false (b :: rest) = 46 :: collapseAux true rest := by
  simp [collapseAux, hb]

/-- Unfolding: a disallowed byte inside a run is dropped. -/
theorem collapseAux_cons_dis_true (b : Nat) (rest : List Nat)
    (hb : isAlnumByte b = false) :
    collapseAux true (b :: rest) = collapseAux true rest := by
  simp [collapseAux, hb]

/-- Every byte of the collapsed output is the separator or a byte of the
input. -/
theorem collapseAux_mem (l : List Nat) :
    ∀ (flag : Bool) (x : Nat), x ∈ collapseAux flag l → x = 46 ∨ x ∈ l := by
  induction l with
  | nil => intro flag x hx; rw [collapseAux_nil] at hx; simp at hx
  | cons b rest ih =>
    intro flag x hx
    by_cases hb : isAlnumByte b = true
    · rw [collapseAux_cons_allowed flag b rest hb] at hx
      rcases List.mem_cons.mp hx with h | h
      · right; exact h ▸ List.mem_cons_self b rest
      · rcases ih false x h with h' | h'
        · left; exact h'
        · right; exact List.mem_cons_of_mem _ h'
    · rw [Bool.not_eq_true] at hb
      cases flag with
      | true =>
        rw [collapseAux_cons_dis_true b rest hb] at hx
        rcases ih true x hx with h' | h'
        · left; exact h'
        · right; exact List.mem_cons_of_mem _ h'
      | false =>
        rw [collapseAux_cons_dis_false b rest hb] at hx
        rcases List.mem_cons.mp hx with h | h
        · left; exact h
        · rcases ih true x h with h' | h'
          · left; exact h'
          · right; exact List.mem_cons_of_mem _ h'

/-- Collapsing runs is idempotent, for every combination of the
run flags. -/
theorem collapseAux_idem (l : List Nat) :
    collapseAux false (collapseAux false l) = collapseAux false l ∧
    collapseAux false (collapseAux true l) = collapseAux true l ∧
    collapseAux true (collapseAux true l) = collapseAux true l := by
  induction l with
  | nil => rw [collapseAux_nil, collapseAux_nil, collapseAux_nil]; exact ⟨rfl, rfl, rfl⟩
  | cons b rest ih =>
    obtain ⟨ih1, ih2, ih3⟩ := ih
    by_cases hb : isAlnumByte b = true
    · rw [collapseAux_cons_allowed false b rest hb, collapseAux_cons_allowed true b rest hb,
        collapseAux_cons_allowed false b _ hb, collapseAux_cons_allowed true b _ hb, ih1]
      exact ⟨rfl, rfl, rfl⟩
    · rw [Bool.not_eq_true] at hb
      have hdot : isAlnumByte 46 = false := by decide
      rw [collapseAux_cons_dis_false b rest hb, collapseAux_cons_dis_true b rest hb,
        collapseAux_cons_dis_false 46 _ hdot, ih3]
      exact ⟨rfl, ih2, rfl⟩

/-- The output of `convertName` is already lowercase. -/
theorem convertName_lower_fixed (l : List Nat) :
    (convertName l).map lowerByte = convertName l := by
  have hfix : ∀ x ∈ convertName l, lowerByte x = x := by
    intro x hx
    rcases collapseAux_mem (l.map lowerByte) false x hx with h | h
    · rw [h, lowerByte_dot]
    · rcases List.mem_map.mp h with ⟨y, _, rfl⟩
      exact lowerByte_idem y
  calc (convertName l).map lowerByte
      = (convertName l).map id := List.map_congr_left hfix
    _ = convertName l := List.map_id _

/-- C8: name normalization is idempotent — for every legacy name N
(as a byte sequence), normalize (normalize N) = normalize N — and the
name "MaKe.-.MaKe" normalizes to "make.make" (the run ".-." of
disallowed characters collapses to a single dot and letters are
lowercased). -/
theorem claim_C8_name_normalization :
    (∀ N : List Nat, convertName (convertName N) = convertName N) ∧
    convertName [77, 97, 75, 101, 46, 45, 46, 77, 97, 75, 101]
      = [109, 97, 107, 101, 46, 109, 97, 107, 101] := by
  constructor
  · intro N
    show collapseAux false ((convertName N).map lowerByte) = convertName N
    rw [convertName_lower_fixed]
    exact (collapseAux_idem (N.map lowerByte)).1
  · decide

/-- Masking to the prefix is idempotent. -/
theorem IPNet.network_idem (n : IPNet) : n.network.network = n.network := by
  unfold IPNet.network
  have hk : 0 < 2 ^ (n.width - n.prefixLen) := Nat.two_pow_pos _
  simp only
  congr 1
  rw [Nat.mul_div_cancel_left _ hk]

/-- A masked network has no host bits. -/
theorem IPNet.network_hostBits (n : IPNet) : n.network.hostBits = 0 := by
  unfold IPNet.network IPNet.hostBits
  simp only
  exact Nat.mul_mod_right _ _

/-- C7: CIDR normalization maps nil to nil, is idempotent on single
networks and on network sequences, and every non-nil output network has
zero host bits beyond its prefix length. -/
theorem claim_C7_cidr_normalization :
    normalizeIPNet none = none ∧
    (∀ x : Option IPNet, normalizeIPNet (normalizeIPNet x) = normalizeIPNet x) ∧
    (∀ n : IPNet, normalizeIPNet (some n) = some n.network ∧ n.network.hostBits = 0) ∧
    normalizeIPNets none = none ∧
    (∀ ns : GoSlice (Option IPNet),
      normalizeIPNets (normalizeIPNets ns) = normalizeIPNets ns) := by
  refine ⟨rfl, ?_, ?_, rfl, ?_⟩
  · intro x
    cases x with
    | none => rfl
    | some n => show some n.network.network = some n.network; rw [IPNet.network_idem]
  · intro n
    exact ⟨rfl, IPNet.network_hostBits n⟩
  · intro ns
    cases ns with
    | none => rfl
    | some nets =>
      show some ((nets.map normalizeIPNet).map normalizeIPNet) = some (nets.map normalizeIPNet)
      rw [List.map_map]
      congr 1
      apply List.map_congr_left
      intro x _
      show normalizeIPNet (normalizeIPNet x) = normalizeIPNet x
      cases x with
      | none => rfl
      | some n => show some n.network.network = some n.network; rw [IPNet.network_idem]

/-- C4: legacy action "Pass" maps to backend token "next-tier" and every
other legacy action passes through unchanged; backend "" maps to Allow,
"next-tier" maps to Pass, other tokens are matched case-insensitively
against the four known actions, unmatched tokens pass through as an
opaque action value; the round trip legacy "Pass" → backend "next-tier"
→ current-API Pass holds. -/
theorem claim_C4_action_mapping :
    ruleActionAPIToBackend "Pass" = "next-tier" ∧
    (∀ s : String, s ≠ "Pass" → ruleActionAPIToBackend s = s) ∧
    ruleActionToV3API "" = apiv3.Allow ∧
    ruleActionToV3API "next-tier" = apiv3.Pass ∧
    (∀ s : String, s ≠ "" → s ≠ "next-tier" →
      (strToLower s = "allow" → ruleActionToV3API s = apiv3.Allow) ∧
      (strToLower s = "deny" → ruleActionToV3API s = apiv3.Deny) ∧
      (strToLower s = "log" → ruleActionToV3API s = apiv3.Log) ∧
      (strToLower s = "pass" → ruleActionToV3API s = apiv3.Pass)) ∧
    (∀ s : String, s ≠ "" → s ≠ "next-tier" →
      strToLower s ≠ "allow" → strToLower s ≠ "deny" →
      strToLower s ≠ "log" → strToLower s ≠ "pass" →
      ruleActionToV3API s = (s : apiv3.Action)) ∧
    ruleActionToV3API (ruleActionAPIToBackend "Pass") = apiv3.Pass := by
  have eAllow : strToLower apiv3.Allow = "allow" := rfl
  have eDeny : strToLower apiv3.Deny = "deny" := rfl
  have eLog : strToLower apiv3.Log = "log" := rfl
  have ePass : strToLower apiv3.Pass = "pass" := rfl
  refine ⟨by decide, ?_, by decide, by decide, ?_, ?_, by decide⟩
  · intro s h
    rw [ruleActionAPIToBackend, if_neg h]
  · intro s h1 h2
    refine ⟨?_, ?_, ?_, ?_⟩ <;> intro hs <;>
      simp [ruleActionToV3API, h1, h2, List.find?, eAllow, eDeny, eLog, ePass, hs]
  · intro s h1 h2 h3 h4 h5 h6
    simp [ruleActionToV3API, h1, h2, List.find?, eAllow, eDeny, eLog, ePass, h3, h4, h5, h6]

/-- Witness for C4: a non-Pass legacy action passes through, and a
mixed-case backend token resolves case-insensitively. -/
theorem claim_C4_witness :
    ruleActionAPIToBackend "Allow" = "Allow" ∧ ruleActionToV3API "ALLOW" = apiv3.Allow :=
  ⟨claim_C4_action_mapping.2.1 "Allow" (by decide),
   (claim_C4_action_mapping.2.2.2.2.1 "ALLOW" (by decide) (by decide)).1 (by decide)⟩

/-- C3: for every backend rule converted to the current API, for each of
the four entity/polarity combinations independently: an empty tag leaves
the selector unchanged, a non-empty tag produces exactly the text
"(" + selector + ") && " + tag + " == ''". -/
theorem claim_C3_tag_selector_merge :
    ∀ (br : model.Rule) (out : apiv3.Rule), ruleBackendToAPI br = some out →
      ((br.SrcTag = "" → out.Source.Selector = br.SrcSelector) ∧
       (br.SrcTag ≠ "" → out.Source.Selector
          = "(" ++ br.SrcSelector ++ ") && " ++ br.SrcTag ++ " == ''")) ∧
      ((br.DstTag = "" → out.Destination.Selector = br.DstSelector) ∧
       (br.DstTag ≠ "" → out.Destination.Selector
          = "(" ++ br.DstSelector ++ ") && " ++ br.DstTag ++ " == ''")) ∧
      ((br.NotSrcTag = "" → out.Source.NotSelector = br.NotSrcSelector) ∧
       (br.NotSrcTag ≠ "" → out.Source.NotSelector
          = "(" ++ br.NotSrcSelector ++ ") && " ++ br.NotSrcTag ++ " == ''")) ∧
      ((br.NotDstTag = "" → out.Destination.NotSelector = br.NotDstSelector) ∧
       (br.NotDstTag ≠ "" → out.Destination.NotSelector
          = "(" ++ br.NotDstSelector ++ ") && " ++ br.NotDstTag ++ " == ''")) := by
  intro br out h
  rcases hp : br.Protocol with _ | p
  · simp [ruleBackendToAPI, hp] at h
  · simp only [ruleBackendToAPI, hp] at h
    rw [Option.some.injEq] at h
    subst h
    refine ⟨⟨?_, ?_⟩, ⟨?_, ?_⟩, ⟨?_, ?_⟩, ⟨?_, ?_⟩⟩ <;> intro htag <;> simp [htag]

/-- A base backend rule, used by the concrete witnesses: every field
absent or empty except the protocol, which conversion requires. -/
def brBase : model.Rule :=
  { Action := "", IPVersion := none, Protocol := some (.num 6),
    ICMPCode := none, ICMPType := none,
    NotProtocol := none, NotICMPCode := none, NotICMPType := none,
    SrcTag := "", SrcNet := none, SrcNets := none, SrcSelector := "", SrcPorts := none,
    DstTag := "", DstNet := none, DstNets := none, DstSelector := "", DstPorts := none,
    NotSrcTag := "", NotSrcNet := none, NotSrcNets := none, NotSrcSelector := "",
    NotSrcPorts := none,
    NotDstTag := "", NotDstNet := none, NotDstNets := none, NotDstSelector := "",
    NotDstPorts := none }

/-- Witness for C3: a backend rule with tag "tag1" and selector "all()"
converts to the exact merged selector text. -/
theorem claim_C3_witness :
    ∃ out, ruleBackendToAPI { brBase with SrcTag := "tag1", SrcSelector := "all()" } = some out
      ∧ out.Source.Selector = "(all()) && tag1 == ''" := by
  obtain ⟨out, hout⟩ :
      ∃ out, ruleBackendToAPI { brBase with SrcTag := "tag1", SrcSelector := "all()" } = some out :=
    ⟨_, rfl⟩
  refine ⟨out, hout, ?_⟩
  have h := (claim_C3_tag_selector_merge _ out hout).1.2 (by decide)
  rw [h]; decide

/-- C5: on the legacy-to-backend leg only the destination-side networks
are CIDR-normalized; the source-side networks and the tags, selectors,
ports, IPVersion and protocols are copied into the backend rule
unchanged. -/
theorem claim_C5_dst_normalization_frame :
    ∀ ar : apiv1.Rule,
      (ruleAPIToBackend ar).DstNet = normalizeIPNet ar.Destination.Net ∧
      (ruleAPIToBackend ar).DstNets = normalizeIPNets ar.Destination.Nets ∧
      (ruleAPIToBackend ar).NotDstNet = normalizeIPNet ar.Destination.NotNet ∧
      (ruleAPIToBackend ar).NotDstNets = normalizeIPNets ar.Destination.NotNets ∧
      (ruleAPIToBackend ar).SrcNet = ar.Source.Net ∧
      (ruleAPIToBackend ar).SrcNets = ar.Source.Nets ∧
      (ruleAPIToBackend ar).NotSrcNet = ar.Source.NotNet ∧
      (ruleAPIToBackend ar).NotSrcNets = ar.Source.NotNets ∧
      (ruleAPIToBackend ar).SrcTag = ar.Source.Tag ∧
      (ruleAPIToBackend ar).DstTag = ar.Destination.Tag ∧
      (ruleAPIToBackend ar).NotSrcTag = ar.Source.NotTag ∧
      (ruleAPIToBackend ar).NotDstTag = ar.Destination.NotTag ∧
      (ruleAPIToBackend ar).SrcSelector = ar.Source.Selector ∧
      (ruleAPIToBackend ar).DstSelector = ar.Destination.Selector ∧
      (ruleAPIToBackend ar).NotSrcSelector = ar.Source.NotSelector ∧
      (ruleAPIToBackend ar).NotDstSelector = ar.Destination.NotSelector ∧
      (ruleAPIToBackend ar).SrcPorts = ar.Source.Ports ∧
      (ruleAPIToBackend ar).DstPorts = ar.Destination.Ports ∧
      (ruleAPIToBackend ar).NotSrcPorts = ar.Source.NotPorts ∧
      (ruleAPIToBackend ar).NotDstPorts = ar.Destination.NotPorts ∧
      (ruleAPIToBackend ar).IPVersion = ar.IPVersion ∧
      (ruleAPIToBackend ar).Protocol = ar.Protocol ∧
      (ruleAPIToBackend ar).NotProtocol = ar.NotProtocol := by
  intro ar
  refine ⟨rfl, rfl, rfl, rfl, rfl, rfl, rfl, rfl, rfl, rfl, rfl, rfl,
    rfl, rfl, rfl, rfl, rfl, rfl, rfl, rfl, rfl, rfl, rfl⟩

/-- C6: in the backend-to-current-API direction the ICMP (and NotICMP)
substructure is present iff at least one of the two flattened sub-fields
is set, carries exactly those sub-fields, and is never a present
zero-valued structure; in the legacy-to-backend direction the sub-fields
are extracted exactly when the input substructure is present. -/
theorem claim_C6_icmp_presence :
    (∀ (br : model.Rule) (out : apiv3.Rule), ruleBackendToAPI br = some out →
      (out.ICMP.isSome = (br.ICMPCode.isSome || br.ICMPType.isSome)) ∧
      (∀ f, out.ICMP = some f →
        f.Code = br.ICMPCode ∧ f.TypeVal = br.ICMPType ∧ (f.Code.isSome ∨ f.TypeVal.isSome)) ∧
      (out.NotICMP.isSome = (br.NotICMPCode.isSome || br.NotICMPType.isSome)) ∧
      (∀ f, out.NotICMP = some f →
        f.Code = br.NotICMPCode ∧ f.TypeVal = br.NotICMPType ∧
          (f.Code.isSome ∨ f.TypeVal.isSome))) ∧
    (∀ ar : apiv1.Rule,
      (ar.ICMP = none →
        (ruleAPIToBackend ar).ICMPCode = none ∧ (ruleAPIToBackend ar).ICMPType = none) ∧
      (∀ i, ar.ICMP = some i →
        (ruleAPIToBackend ar).ICMPCode = i.Code ∧ (ruleAPIToBackend ar).ICMPType = i.TypeVal) ∧
      (ar.NotICMP = none →
        (ruleAPIToBackend ar).NotICMPCode = none ∧ (ruleAPIToBackend ar).NotICMPType = none) ∧
      (∀ i, ar.NotICMP = some i →
        (ruleAPIToBackend ar).NotICMPCode = i.Code ∧
          (ruleAPIToBackend ar).NotICMPType = i.TypeVal)) := by
  constructor
  · intro br out h
    rcases hp : br.Protocol with _ | p
    · simp [ruleBackendToAPI, hp] at h
    · simp only [ruleBackendToAPI, hp] at h
      rw [Option.some.injEq] at h
      subst h
      refine ⟨?_, ?_, ?_, ?_⟩
      · by_cases hc : br.ICMPCode.isSome || br.ICMPType.isSome <;> simp [hc]
      · intro f hf
        by_cases hc : br.ICMPCode.isSome || br.ICMPType.isSome
        · simp only [if_pos hc] at hf
          rw [Option.some.injEq] at hf
          subst hf
          rcases Bool.or_eq_true_iff.mp hc with h' | h'
          · exact ⟨rfl, rfl, Or.inl h'⟩
          · exact ⟨rfl, rfl, Or.inr h'⟩
        · rw [if_neg hc] at hf
          exact Option.noConfusion hf
      · by_cases hc : br.NotICMPCode.isSome || br.NotICMPType.isSome <;> simp [hc]
      · intro f hf
        by_cases hc : br.NotICMPCode.isSome || br.NotICMPType.isSome
        · simp only [if_pos hc] at hf
          rw [Option.some.injEq] at hf
          subst hf
          rcases Bool.or_eq_true_iff.mp hc with h' | h'
          · exact ⟨rfl, rfl, Or.inl h'⟩
          · exact ⟨rfl, rfl, Or.inr h'⟩
        · rw [if_neg hc] at hf
          exact Option.noConfusion hf
  · intro ar
    refine ⟨?_, ?_, ?_, ?_⟩
    · intro hi; simp [ruleAPIToBackend, hi]
    · intro i hi; simp [ruleAPIToBackend, hi]
    · intro hi; simp [ruleAPIToBackend, hi]
    · intro i hi; simp [ruleAPIToBackend, hi]

/-- Witness for C6: a backend rule with only an ICMP type set converts
to a present ICMP substructure carrying exactly that field. -/
theorem claim_C6_witness :
    ∃ out, ruleBackendToAPI { brBase with ICMPType := some 8 } = some out
      ∧ out.ICMP.isSome = true ∧ out.NotICMP.isSome = false := by
  obtain ⟨out, hout⟩ : ∃ out, ruleBackendToAPI { brBase with ICMPType := some 8 } = some out :=
    ⟨_, rfl⟩
  have h := (claim_C6_icmp_presence.1 _ out hout).1
  have h' := (claim_C6_icmp_presence.1 _ out hout).2.2.1
  exact ⟨out, hout, by rw [h]; decide, by rw [h']; decide⟩

/-- C9: the backend-to-current-API rule conversion requires a non-nil
protocol: with a protocol present it is total and the output protocol is
present; with a nil protocol there is no result (the Go original
dereferences the nil pointer unguarded). -/
theorem claim_C9_protocol_required :
    (∀ (br : model.Rule) (p : numorstring.Protocol), br.Protocol = some p →
      (ruleBackendToAPI br).isSome ∧
      ∀ out, ruleBackendToAPI br = some out → out.Protocol.isSome) ∧
    (∀ br : model.Rule, br.Protocol = none → ruleBackendToAPI br = none) := by
  constructor
  · intro br p hp
    constructor
    · simp [ruleBackendToAPI, hp]
    · intro out h
      simp only [ruleBackendToAPI, hp] at h
      rw [Option.some.injEq] at h
      subst h
      rfl
  · intro br hp
    simp [ruleBackendToAPI, hp]

/-- Witness for C9: the base rule carries protocol 6 and converts to a
rule with a present protocol. -/
theorem claim_C9_witness :
    (ruleBackendToAPI brBase).isSome = true ∧ ruleBackendToAPI { brBase with Protocol := none } = none :=
  ⟨(claim_C9_protocol_required.1 brBase (.num 6) rfl).1,
   claim_C9_protocol_required.2 { brBase with Protocol := none } rfl⟩

/-- C10: in the backend-to-current-API conversion each of the four net
string sequences is nil (absent) whenever the corresponding singular net
is nil and the plural list is nil or empty: the Go output slice is only
allocated when at least one network is appended. -/
theorem claim_C10_nets_nil_when_empty :
    ∀ (br : model.Rule) (out : apiv3.Rule), ruleBackendToAPI br = some out →
      (br.SrcNet = none → (br.SrcNets = none ∨ br.SrcNets = some []) →
        out.Source.Nets = none) ∧
      (br.DstNet = none → (br.DstNets = none ∨ br.DstNets = some []) →
        out.Destination.Nets = none) ∧
      (br.NotSrcNet = none → (br.NotSrcNets = none ∨ br.NotSrcNets = some []) →
        out.Source.NotNets = none) ∧
      (br.NotDstNet = none → (br.NotDstNets = none ∨ br.NotDstNets = some []) →
        out.Destination.NotNets = none) := by
  intro br out h
  rcases hp : br.Protocol with _ | p
  · simp [ruleBackendToAPI, hp] at h
  · simp only [ruleBackendToAPI, hp] at h
    rw [Option.some.injEq] at h
    subst h
    refine ⟨?_, ?_, ?_, ?_⟩ <;> intro h1 h2 <;> rcases h2 with h2 | h2 <;>
      simp [model.Rule.AllSrcNets, model.Rule.AllDstNets, model.Rule.AllNotSrcNets,
        model.Rule.AllNotDstNets, combineNets, h1, h2]

/-- Witness for C10: the base rule has no nets anywhere and converts to
a rule whose source Nets sequence is nil. -/
theorem claim_C10_witness :
    ∃ out, ruleBackendToAPI brBase = some out ∧ out.Source.Nets = none := by
  obtain ⟨out, hout⟩ : ∃ out, ruleBackendToAPI brBase = some out := ⟨_, rfl⟩
  exact ⟨out, hout, (claim_C10_nets_nil_when_empty brBase out hout).1 rfl (Or.inl rfl)⟩

/-- C2: a nil legacy rule slice becomes an empty non-nil backend slice;
a nil backend slice stays nil in the current API; empty stays empty on
both legs and a non-nil input never becomes nil on either leg. -/
theorem claim_C2_nil_empty_rules :
    rulesAPIToBackend none = some [] ∧
    rulesAPIToBackend (some []) = some [] ∧
    rulesV1BackendToV3API none = some none ∧
    rulesV1BackendToV3API (some []) = some (some []) ∧
    (∀ ars : List apiv1.Rule, rulesAPIToBackend (some ars) = some (ars.map ruleAPIToBackend)) ∧
    (∀ (brs : List model.Rule) (out : GoSlice apiv3.Rule),
      rulesV1BackendToV3API (some brs) = some out → out ≠ none) := by
  refine ⟨rfl, rfl, rfl, rfl, fun ars => rfl, ?_⟩
  intro brs out h
  simp only [rulesV1BackendToV3API] at h
  rcases hm : brs.mapM ruleBackendToAPI with _ | l
  · rw [hm] at h; simp at h
  · rw [hm] at h
    injection h with h1
    subst h1
    simp

/-- Witness for C2: converting the one-element backend slice holding the
base rule yields a non-nil current-API slice. -/
theorem claim_C2_witness :
    ∃ out, rulesV1BackendToV3API (some [brBase]) = some out ∧ out ≠ none := by
  obtain ⟨out, hout⟩ : ∃ out, rulesV1BackendToV3API (some [brBase]) = some out := ⟨_, rfl⟩
  exact ⟨out, hout, claim_C2_nil_empty_rules.2.2.2.2.2 [brBase] out hout⟩

/-- A key/value policy pair with the given flags, empty rule slices and
an ingress type marker, used to instantiate the flag truth table. -/
def flagsKV (dnt pre aof : Bool) : model.KVPair :=
  { Key := { Name := [114, 97, 119, 114] }
    Value :=
      { Order := none, InboundRules := some [], OutboundRules := some [],
        Selector := "", DoNotTrack := dnt, PreDNAT := pre, ApplyOnForward := aof,
        Types := some ["ingress"] } }

/-- C1: for every backend policy the converted current-API
ApplyOnForward equals ApplyOnForward OR (DoNotTrack AND PreDNAT); in
particular (DoNotTrack, PreDNAT, ApplyOnForward) = (true, true, false)
yields true, (false, false, true) yields true and (false, false, false)
yields false. -/
theorem claim_C1_applyOnForward :
    (∀ (kv : model.KVPair) (out : apiv3.GlobalNetworkPolicy),
      backendV1ToAPIV3 kv = some out →
      out.Spec.ApplyOnForward
        = (kv.Value.ApplyOnForward || (kv.Value.DoNotTrack && kv.Value.PreDNAT))) ∧
    (backendV1ToAPIV3 (flagsKV true true false)).map (fun o => o.Spec.ApplyOnForward)
      = some true ∧
    (backendV1ToAPIV3 (flagsKV false false true)).map (fun o => o.Spec.ApplyOnForward)
      = some true ∧
    (backendV1ToAPIV3 (flagsKV false false false)).map (fun o => o.Spec.ApplyOnForward)
      = some false := by
  refine ⟨?_, rfl, rfl, rfl⟩
  intro kv out h
  rcases h1 : rulesV1BackendToV3API kv.Value.InboundRules with _ | ingress
  · simp [backendV1ToAPIV3, h1] at h
  · rcases h2 : rulesV1BackendToV3API kv.Value.OutboundRules with _ | egress
    · simp [backendV1ToAPIV3, h1, h2] at h
    · rcases h3 : goTypesToV3 kv.Value.Types with _ | types
      · simp [backendV1ToAPIV3, h1, h2, h3] at h
      · simp only [backendV1ToAPIV3, h1, h2, h3] at h
        rw [Option.some.injEq] at h
        subst h
        rfl

/-- Witness for C1: the (true, true, false) truth-table row, through the
general theorem. -/
theorem claim_C1_witness :
    ∃ out, backendV1ToAPIV3 (flagsKV true true false) = some out
      ∧ out.Spec.ApplyOnForward = (false || (true && true)) := by
  obtain ⟨out, hout⟩ : ∃ out, backendV1ToAPIV3 (flagsKV true true false) = some out := ⟨_, rfl⟩
  exact ⟨out, hout, claim_C1_applyOnForward.1 _ out hout⟩
